import Mathlib

/-!
Verification development for the emagpy `Problem` class
(src/src/emagpy/Problem.py): row-wise EMI inversion drivers.

Conventions of the embedding:
* numpy 1-d arrays of floats are `List ℚ` (exact arithmetic; the claims
  under study are structural, not about rounding), 2-d arrays are
  `List (List ℚ)` (row major).
* `scipy.optimize.minimize(objfunc, x0, args=(app, pn), method, bounds)`
  is an abstract parameter `opt : (Vec → ℝ) → Vec → Vec`: it receives the
  objective with `app`/`pn` already applied (as scipy does through `args`)
  and the initial guess `x0`, and returns `res.x`.  `method` and `bounds`
  are baked into `opt`.
* `np.sqrt` is an abstract parameter `rsqrt : ℚ → ℝ` wherever its value
  flows into stored results; theorems about the objective formula
  instantiate it with `Real.sqrt`.
* `np.linalg.solve` is an abstract parameter `lsolve : Mat → Vec → Vec`.
* The helper functions `fCS`, `fMaxwellECa`, `fMaxwellQ`,
  `buildSecondDiff`, `buildJacobian` are imported by Problem.py from
  `emagpy.invertHelper`, which is not part of the analyzed source; they
  are kept as abstract parameters (bundled in `Helpers`) with the
  depth/coil configuration baked in, exactly as the closures in
  `invert`/`invertGN` bake them in.
* `print`/`dump` progress reporting is side-effect only and is omitted.
-/

abbrev Vec := List ℚ
abbrev Mat := List (List ℚ)

/-- Dot product of two rational vectors (`np.dot` on 1-d arrays). -/
def dotQ (v w : Vec) : ℚ := (List.zipWith (fun a b => a * b) v w).sum

/-- Matrix–vector product (`np.dot(M, v)`). -/
def matVecQ (M : Mat) (v : Vec) : Vec := M.map (fun r => dotQ r v)

/-- The j-th column of a row-major matrix. -/
def colQ (M : Mat) (j : Nat) : Vec := M.map (fun r => r.getD j 0)

/-- Matrix transpose (`M.T`). -/
def transposeQ (M : Mat) : Mat := (List.range (M.headD []).length).map (colQ M)

/-- Matrix–matrix product (`np.dot(A, B)`). -/
def matMulQ (A B : Mat) : Mat := A.map (fun r => (transposeQ B).map (fun c => dotQ r c))

/-- Entrywise matrix sum. -/
def matAddQ (A B : Mat) : Mat := List.zipWith (fun r s => List.zipWith (fun a b => a + b) r s) A B

/-- Scalar times matrix. -/
def smulMatQ (a : ℚ) (M : Mat) : Mat := M.map (fun r => r.map (fun x => a * x))

/-- Scalar times vector. -/
def smulVecQ (a : ℚ) (v : Vec) : Vec := v.map (fun x => a * x)

/-- Entrywise vector sum. -/
def vaddQ (v w : Vec) : Vec := List.zipWith (fun a b => a + b) v w

/-- Entrywise vector difference. -/
def vsubQ (v w : Vec) : Vec := List.zipWith (fun a b => a - b) v w

/-- `np.sum(x**2)`. -/
def sumSq (v : Vec) : ℚ := (v.map (fun x => x * x)).sum

/-- `np.sum(np.abs(x))`. -/
def sumAbs (v : Vec) : ℚ := (v.map (fun x => abs x)).sum

/-- `np.mean` of a vector; Problem.py uses `np.nanmean`, which agrees with
the plain mean on rows without NaN entries (the embedding is NaN-free). -/
def meanQ (v : Vec) : ℚ := v.sum / (v.length : ℚ)

/-- `np.zeros(n)`. -/
def zerosQ (n : Nat) : Vec := List.replicate n (0 : ℚ)

/-- `np.diff` of a 1-d array: consecutive differences `x[i+1] - x[i]`. -/
def diffQ (xs : Vec) : Vec := List.zipWith (fun a b => a - b) xs.tail xs

/-- A `Survey` object as seen by `Problem`: its coil configuration fields
and its measurement table `df[coils].values` (one row per location, one
column per coil).  File parsing is outside the analyzed core. -/
structure SurveyE where
  coils : List String
  freqs : List ℚ
  cspacing : List ℚ
  cpos : List String
  hx : List ℚ
  rows : List Vec
deriving DecidableEq

/-- The state of a `Problem` instance: the fields written by `__init__`,
`createSurvey`, `invert` and `invertGN`.  `rmses` holds real values
because the stored entries are square roots. -/
structure ProblemState where
  coils : List String
  freqs : List ℚ
  cspacing : List ℚ
  cpos : List String
  hx : List ℚ
  surveys : List SurveyE
  models : List (List Vec)
  rmses : List (List ℝ)
  conds0 : Vec

/-- `Problem.createSurvey` (Problem.py lines 61–84), with the `Survey`
constructor call replaced by the already-built survey value.  On the
first survey the configuration fields are copied; otherwise the
elementwise comparison `[a == b for a, b in zip(self.coils, survey.coils)]`
is checked with `all(check) is True` and the survey is appended only when
it holds (note Python `zip` truncates to the shorter list). -/
def createSurvey (st : ProblemState) (s : SurveyE) : ProblemState :=
  if st.surveys.length = 0 then
    { st with coils := s.coils, freqs := s.freqs, cspacing := s.cspacing,
              cpos := s.cpos, hx := s.hx, surveys := st.surveys ++ [s] }
  else
    if (List.zipWith (fun a b => decide (a = b)) st.coils s.coils).all (fun x => x) then
      { st with surveys := st.surveys ++ [s] }
    else st

/-- `Problem.setDepths` (Problem.py lines 119–127), transcribed exactly:
an empty sequence raises, then `if all(np.diff(depths) > 0): raise`, and
otherwise `self.depths = np.array(depths)` is stored.  Exceptions are
`Except.error` carrying the ValueError message. -/
def setDepths (depths : Vec) : Except String Vec :=
  if depths.length = 0 then Except.error "No depths specified."
  else if (diffQ depths).all (fun d => decide (0 < d)) then
    Except.error "Depths should be ordered and increasing."
  else Except.ok depths

/-- The regularization kinds accepted by `invert`. -/
inductive Reg where
  | l1 : Reg
  | l2 : Reg
deriving DecidableEq

/-- The quantity under `np.sqrt` in the `objfunc` of `invert`
(Problem.py lines 195–204): the chosen-norm data misfit
`fmodel(p) - app` divided by `len(app)`, plus `alpha` times the norm of
`L @ p` divided by `len(p)`, plus `beta` times the norm of `p - pn`
divided by `len(p)`.  The objective itself is the square root of this. -/
def objArg (reg : Reg) (alpha beta : ℚ) (L : Mat) (fmodel : Vec → Vec)
    (p app pn : Vec) : ℚ :=
  match reg with
  | Reg.l1 =>
      sumAbs (vsubQ (fmodel p) app) / (app.length : ℚ)
        + alpha * sumAbs (matVecQ L p) / (p.length : ℚ)
        + beta * sumAbs (vsubQ p pn) / (p.length : ℚ)
  | Reg.l2 =>
      sumSq (vsubQ (fmodel p) app) / (app.length : ℚ)
        + alpha * sumSq (matVecQ L p) / (p.length : ℚ)
        + beta * sumSq (vsubQ p pn) / (p.length : ℚ)

/-- The norm selected by the regularization kind, as the spec words it:
L1 is the sum of absolute values, L2 the sum of squares. -/
def normOf (reg : Reg) (v : Vec) : ℚ :=
  match reg with
  | Reg.l1 => sumAbs v
  | Reg.l2 => sumSq v

/-- The spec `dataTerm`: the chosen norm of `forward(p) - observed`. -/
def dataTerm (reg : Reg) (fmodel : Vec → Vec) (p app : Vec) : ℚ :=
  normOf reg (vsubQ (fmodel p) app)

/-- The spec `modelTerm`: the chosen norm of `L @ p`. -/
def modelTerm (reg : Reg) (L : Mat) (p : Vec) : ℚ :=
  normOf reg (matVecQ L p)

/-- The spec `temporalTerm`: the chosen norm of `p - previous`. -/
def temporalTerm (reg : Reg) (p pn : Vec) : ℚ :=
  normOf reg (vsubQ p pn)

/-- The row loop of `invert` (Problem.py lines 213–227) for one survey:
given the previous profile `pn` (the zero vector on entry, then the
result of the previous row), each row calls the minimizer on the objective
`np.sqrt(objArg ...)` with initial guess `conds0`, records `res.x`, and
records `rmse[j] = np.sqrt(np.sum(dataMisfit(out, app)**2)/len(app))`. -/
def invertRows (opt : (Vec → ℝ) → Vec → Vec) (rsqrt : ℚ → ℝ)
    (objA : Vec → Vec → Vec → ℚ) (fmodel : Vec → Vec) (conds0 : Vec) :
    Vec → List Vec → List (Vec × ℝ)
  | _, [] => []
  | pn, app :: rest =>
      let out := opt (fun p => rsqrt (objA p app pn)) conds0
      (out, rsqrt (sumSq (vsubQ (fmodel out) app) / (app.length : ℚ)))
        :: invertRows opt rsqrt objA fmodel conds0 out rest

/-- The inversion of one survey inside `invert`: the model table (one row of
conductivities per measurement row) and the parallel rmse list. -/
def invertSurvey (opt : (Vec → ℝ) → Vec → Vec) (rsqrt : ℚ → ℝ)
    (objA : Vec → Vec → Vec → ℚ) (fmodel : Vec → Vec) (conds0 : Vec)
    (apps : List Vec) : List Vec × List ℝ :=
  let rs := invertRows opt rsqrt objA fmodel conds0 (zerosQ conds0.length) apps
  (rs.map Prod.fst, rs.map Prod.snd)

/-- Modelled from the spec: the forward models `fCS`, `fMaxwellECa`,
`fMaxwellQ` and the operator builders `buildSecondDiff`, `buildJacobian`
are defined in `emagpy.invertHelper`, which is not among the analyzed
source files.  They are abstract values here, with the depth and coil
configuration already applied, exactly as `invert`/`invertGN` close over
them; the spec describes them only as maps from a profile to one
predicted ECa per coil, an n × n second-difference matrix, and a
coils × layers sensitivity matrix. -/
structure Helpers where
  fCS : Vec → Vec
  fFS : Vec → Vec
  fFSandrade : Vec → Vec
  buildSecondDiff : Nat → Mat
  buildJacobian : Mat

/-- The forward-model selection of `invert` (Problem.py lines 177–185). -/
def fmSelect (hp : Helpers) (fm : String) : Vec → Vec :=
  if fm = "CS" then hp.fCS else if fm = "FS" then hp.fFS else hp.fFSandrade

/-- `Problem.invert` (Problem.py lines 131–229).  `self.models` and
`self.rmses` are cleared on entry; when `forwardModel` is one of
CS/FS/FSandrade the forward model is selected, `L = buildSecondDiff(len(conds0))`
is built, and each survey is inverted row by row, appending one model
table and one rmse list per survey; otherwise nothing further happens. -/
def invert (hp : Helpers) (fm : String) (reg : Reg) (alpha beta : ℚ)
    (opt : (Vec → ℝ) → Vec → Vec) (rsqrt : ℚ → ℝ) (st : ProblemState) :
    ProblemState :=
  let st1 : ProblemState := { st with models := [], rmses := [] }
  if fm = "CS" ∨ fm = "FS" ∨ fm = "FSandrade" then
    let fmodel := fmSelect hp fm
    let L := hp.buildSecondDiff st.conds0.length
    let objA := objArg reg alpha beta L fmodel
    let results := st.surveys.map (fun s => invertSurvey opt rsqrt objA fmodel st.conds0 s.rows)
    { st1 with models := results.map Prod.fst, rmses := results.map Prod.snd }
  else st1

/-- The per-row initialization of `invertGN` (Problem.py line 266):
`cond = np.ones((len(conds0), 1)) * np.nanmean(app)`. -/
def gnRowInit (numLayers : Nat) (app : Vec) : Vec :=
  List.replicate numLayers (meanQ app)

/-- One Gauss–Newton update of `invertGN` (Problem.py lines 269–276):
`d = app - fmodel(cond)`; `LHS = J.T @ J + alpha * L`;
`RHS = J.T @ d - alpha * (L @ cond)`; `cond = cond + solve(LHS, RHS)`.
Only the default `alpha_ref = None` path is modelled (the claims under
study never set `alpha_ref`). -/
def gnStep (J L : Mat) (alpha : ℚ) (lsolve : Mat → Vec → Vec)
    (fCSf : Vec → Vec) (app cond : Vec) : Vec :=
  let d := vsubQ app (fCSf cond)
  let lhsM := matAddQ (matMulQ (transposeQ J) J) (smulMatQ alpha L)
  let rhsV := vsubQ (matVecQ (transposeQ J) d) (smulVecQ alpha (matVecQ L cond))
  vaddQ cond (lsolve lhsM rhsV)

/-- The `for l in range(n)` loop of `invertGN`, instrumented with a
counter of linear solves (the second component). -/
def gnLoop (J L : Mat) (alpha : ℚ) (lsolve : Mat → Vec → Vec)
    (fCSf : Vec → Vec) (app : Vec) : Nat → Vec × Nat → Vec × Nat
  | 0, s => s
  | n + 1, s => gnLoop J L alpha lsolve fCSf app n
      (gnStep J L alpha lsolve fCSf app s.1, s.2 + 1)

/-- One row of `invertGN` (Problem.py lines 265–277): initialize at the
mean observed ECa of the row and run the loop body for `range(1)`, i.e. once.
Returns the flattened profile together with the number of linear solves
performed. -/
def invertGNrow (J L : Mat) (alpha : ℚ) (lsolve : Mat → Vec → Vec)
    (fCSf : Vec → Vec) (numLayers : Nat) (app : Vec) : Vec × Nat :=
  gnLoop J L alpha lsolve fCSf app 1 (gnRowInit numLayers app, 0)

/-- The inversion of one survey inside `invertGN`: model rows and the parallel
rmse list `np.sqrt(np.sum((app - fmodel(out))**2)/len(app))`. -/
def invertGNsurvey (J L : Mat) (alpha : ℚ) (lsolve : Mat → Vec → Vec)
    (fCSf : Vec → Vec) (rsqrt : ℚ → ℝ) (numLayers : Nat)
    (apps : List Vec) : List Vec × List ℝ :=
  let rs := apps.map (fun app =>
    let out := (invertGNrow J L alpha lsolve fCSf numLayers app).1
    (out, rsqrt (sumSq (vsubQ app (fCSf out)) / (app.length : ℚ))))
  (rs.map Prod.fst, rs.map Prod.snd)

/-- `Problem.invertGN` (Problem.py lines 235–282): clears `models` and
`rmses`, builds `J = buildJacobian(...)` and `L = buildSecondDiff(J.shape[1])`,
and inverts each survey row by row with one regularized normal-equation
solve per row. -/
def invertGN (hp : Helpers) (alpha : ℚ) (lsolve : Mat → Vec → Vec)
    (rsqrt : ℚ → ℝ) (st : ProblemState) : ProblemState :=
  let J := hp.buildJacobian
  let L := hp.buildSecondDiff (J.headD []).length
  let results := st.surveys.map
    (fun s => invertGNsurvey J L alpha lsolve hp.fCS rsqrt st.conds0.length s.rows)
  { st with models := results.map Prod.fst, rmses := results.map Prod.snd }

/-! ### Helper lemmas about the row loop -/

theorem invertRows_length (opt : (Vec → ℝ) → Vec → Vec) (rsqrt : ℚ → ℝ)
    (objA : Vec → Vec → Vec → ℚ) (fmodel : Vec → Vec) (conds0 : Vec)
    (apps : List Vec) : ∀ pn : Vec,
    (invertRows opt rsqrt objA fmodel conds0 pn apps).length = apps.length := by
  induction apps with
  | nil => intro pn; rfl
  | cons app rest ih =>
      intro pn
      simp only [invertRows, List.length_cons]
      rw [ih]

theorem invertRows_snd_eq (opt : (Vec → ℝ) → Vec → Vec) (rsqrt : ℚ → ℝ)
    (objA : Vec → Vec → Vec → ℚ) (fmodel : Vec → Vec) (conds0 : Vec)
    (apps : List Vec) : ∀ pn : Vec,
    (invertRows opt rsqrt objA fmodel conds0 pn apps).map Prod.snd
      = List.zipWith
          (fun m app => rsqrt (sumSq (vsubQ (fmodel m) app) / (app.length : ℚ)))
          ((invertRows opt rsqrt objA fmodel conds0 pn apps).map Prod.fst) apps := by
  induction apps with
  | nil => intro pn; rfl
  | cons app rest ih =>
      intro pn
      simp only [invertRows, List.map_cons, List.zipWith_cons_cons]
      exact congrArg _ (ih _)

theorem invertRows_fst_getD (opt : (Vec → ℝ) → Vec → Vec) (rsqrt : ℚ → ℝ)
    (objA : Vec → Vec → Vec → ℚ) (fmodel : Vec → Vec) (conds0 : Vec)
    (apps : List Vec) : ∀ (pn : Vec) (j : Nat), j < apps.length →
    ((invertRows opt rsqrt objA fmodel conds0 pn apps).map Prod.fst).getD j []
      = opt (fun p => rsqrt (objA p (apps.getD j [])
          (if j = 0 then pn
           else ((invertRows opt rsqrt objA fmodel conds0 pn apps).map Prod.fst).getD (j - 1) [])))
          conds0 := by
  induction apps with
  | nil => intro pn j hj; exact absurd hj (Nat.not_lt_zero j)
  | cons app rest ih =>
      intro pn j hj
      match j with
      | 0 => simp [invertRows]
      | Nat.succ k =>
          have hk : k < rest.length := Nat.lt_of_succ_lt_succ hj
          simp only [invertRows, List.map_cons, List.getD_cons_succ]
          rw [ih _ k hk]
          match k with
          | 0 => simp
          | Nat.succ m => simp

theorem mapSnd_eq_zipWith_mapFst {α β γ : Type _} (F : α → β × γ) (g : β → α → γ)
    (h : ∀ a, (F a).2 = g (F a).1 a) :
    ∀ l : List α, (l.map F).map Prod.snd = List.zipWith g ((l.map F).map Prod.fst) l := by
  intro l
  induction l with
  | nil => rfl
  | cons a rest ih =>
      simp only [List.map_cons, List.zipWith_cons_cons]
      rw [h a, ih]

theorem invertSurvey_snd_eq (opt : (Vec → ℝ) → Vec → Vec) (rsqrt : ℚ → ℝ)
    (objA : Vec → Vec → Vec → ℚ) (fmodel : Vec → Vec) (conds0 : Vec)
    (apps : List Vec) :
    (invertSurvey opt rsqrt objA fmodel conds0 apps).2
      = List.zipWith
          (fun m app => rsqrt (sumSq (vsubQ (fmodel m) app) / (app.length : ℚ)))
          (invertSurvey opt rsqrt objA fmodel conds0 apps).1 apps := by
  simp only [invertSurvey]
  exact invertRows_snd_eq opt rsqrt objA fmodel conds0 apps (zerosQ conds0.length)

theorem invertSurvey_fst_length (opt : (Vec → ℝ) → Vec → Vec) (rsqrt : ℚ → ℝ)
    (objA : Vec → Vec → Vec → ℚ) (fmodel : Vec → Vec) (conds0 : Vec)
    (apps : List Vec) :
    (invertSurvey opt rsqrt objA fmodel conds0 apps).1.length = apps.length := by
  simp only [invertSurvey, List.length_map]
  exact invertRows_length opt rsqrt objA fmodel conds0 apps (zerosQ conds0.length)

theorem invertSurvey_snd_length (opt : (Vec → ℝ) → Vec → Vec) (rsqrt : ℚ → ℝ)
    (objA : Vec → Vec → Vec → ℚ) (fmodel : Vec → Vec) (conds0 : Vec)
    (apps : List Vec) :
    (invertSurvey opt rsqrt objA fmodel conds0 apps).2.length = apps.length := by
  simp only [invertSurvey, List.length_map]
  exact invertRows_length opt rsqrt objA fmodel conds0 apps (zerosQ conds0.length)

theorem invertSurvey_fst_getD (opt : (Vec → ℝ) → Vec → Vec) (rsqrt : ℚ → ℝ)
    (objA : Vec → Vec → Vec → ℚ) (fmodel : Vec → Vec) (conds0 : Vec)
    (apps : List Vec) (j : Nat) (hj : j < apps.length) :
    (invertSurvey opt rsqrt objA fmodel conds0 apps).1.getD j []
      = opt (fun p => rsqrt (objA p (apps.getD j [])
          (if j = 0 then zerosQ conds0.length
           else (invertSurvey opt rsqrt objA fmodel conds0 apps).1.getD (j - 1) [])))
          conds0 := by
  simp only [invertSurvey]
  exact invertRows_fst_getD opt rsqrt objA fmodel conds0 apps (zerosQ conds0.length) j hj

/-! ### Concrete sample values used by witnesses and counterexamples -/

/-- A concrete optimizer: ignores the objective and returns the initial
guess shifted by one (so distinct initial guesses give distinct outputs). -/
def opt0 : (Vec → ℝ) → Vec → Vec := fun _ x0 => x0.map (fun x => x + 1)

/-- A concrete stand-in for `np.sqrt` (its values are never inspected). -/
def rsqrt0 : ℚ → ℝ := fun _ => 0

/-- The identity forward model. -/
def idModel : Vec → Vec := fun p => p

/-- A concrete 1 × 1 regularization matrix. -/
def L0 : Mat := [[0]]

/-- A concrete 1 × 1 Jacobian. -/
def J1 : Mat := [[1]]

/-- The cumulative-sensitivity forward model matching `J1`. -/
def fCS1 : Vec → Vec := fun p => matVecQ J1 p

/-- A concrete linear solver stand-in. -/
def lsolve0 : Mat → Vec → Vec := fun _ v => v

/-- A concrete initial conductivity profile (one layer). -/
def wV : Vec := [20]

/-- A concrete two-row, one-coil measurement table. -/
def wApps : List Vec := [[0], [0]]

/-- Concrete helper bundle. -/
def hp0 : Helpers where
  fCS := idModel
  fFS := idModel
  fFSandrade := idModel
  buildSecondDiff := fun _ => L0
  buildJacobian := J1

/-- A concrete one-coil survey with one measurement row. -/
def sampleSurvey : SurveyE where
  coils := ["c1"]
  freqs := []
  cspacing := []
  cpos := []
  hx := []
  rows := [[1]]

/-- A concrete problem state holding `sampleSurvey`. -/
def sampleState : ProblemState where
  coils := ["c1"]
  freqs := []
  cspacing := []
  cpos := []
  hx := []
  surveys := [sampleSurvey]
  models := []
  rmses := []
  conds0 := [20]

/-! ### Claim C1 -/

/-- Claim C1: for every conductivity profile `p`, observed row `app` and
previous profile `pn`, the per-row objective built by `invert` equals
`sqrt(dataTerm(p,app)/numCoils + alpha*modelTerm(p)/numLayers
+ beta*temporalTerm(p,pn)/numLayers)` with the chosen norm (L1 = sum of
absolute values, L2 = sum of squares), and the previous profile used for
row `j` of a survey is the zero vector when `j = 0` and the inverted
profile of row `j - 1` otherwise. -/
theorem C1_objective_formula (reg : Reg) (alpha beta : ℚ) (L : Mat)
    (fmodel : Vec → Vec) (opt : (Vec → ℝ) → Vec → Vec) (conds0 : Vec)
    (apps : List Vec) (p app pn : Vec) (j : Nat) (hj : j < apps.length) :
    Real.sqrt ((objArg reg alpha beta L fmodel p app pn : ℚ) : ℝ)
      = Real.sqrt (((dataTerm reg fmodel p app / (app.length : ℚ)
          + alpha * modelTerm reg L p / (p.length : ℚ)
          + beta * temporalTerm reg p pn / (p.length : ℚ) : ℚ) : ℝ))
    ∧ (invertSurvey opt (fun q : ℚ => Real.sqrt (q : ℝ)) (objArg reg alpha beta L fmodel) fmodel conds0 apps).1.getD j []
      = opt (fun q => Real.sqrt (objArg reg alpha beta L fmodel q (apps.getD j [])
          (if j = 0 then zerosQ conds0.length
           else (invertSurvey opt (fun q : ℚ => Real.sqrt (q : ℝ)) (objArg reg alpha beta L fmodel) fmodel conds0 apps).1.getD (j - 1) [])))
          conds0 := by
  constructor
  · have h : objArg reg alpha beta L fmodel p app pn
        = dataTerm reg fmodel p app / (app.length : ℚ)
          + alpha * modelTerm reg L p / (p.length : ℚ)
          + beta * temporalTerm reg p pn / (p.length : ℚ) := by
      cases reg <;> rfl
    rw [h]
  · exact invertSurvey_fst_getD opt (fun q : ℚ => Real.sqrt (q : ℝ)) (objArg reg alpha beta L fmodel)
      fmodel conds0 apps j hj

/-- Closed witness for C1 at a concrete input (row index 1 of a two-row
survey, one coil, one layer). -/
theorem C1_objective_formula_witness :
    1 < wApps.length ∧
    (Real.sqrt ((objArg Reg.l2 0 0 L0 idModel wV wV wV : ℚ) : ℝ)
        = Real.sqrt (((dataTerm Reg.l2 idModel wV wV / (wV.length : ℚ)
            + 0 * modelTerm Reg.l2 L0 wV / (wV.length : ℚ)
            + 0 * temporalTerm Reg.l2 wV wV / (wV.length : ℚ) : ℚ) : ℝ))
      ∧ (invertSurvey opt0 (fun q : ℚ => Real.sqrt (q : ℝ)) (objArg Reg.l2 0 0 L0 idModel) idModel wV wApps).1.getD 1 []
          = opt0 (fun q => Real.sqrt (objArg Reg.l2 0 0 L0 idModel q (wApps.getD 1 [])
              (if 1 = 0 then zerosQ wV.length
               else (invertSurvey opt0 (fun q : ℚ => Real.sqrt (q : ℝ)) (objArg Reg.l2 0 0 L0 idModel) idModel wV wApps).1.getD 0 [])))
              wV) :=
  ⟨by decide, C1_objective_formula Reg.l2 0 0 L0 idModel opt0 wV wApps wV wV wV 1 (by decide)⟩

/-! ### Claim C3 -/

/-- Claim C3 counterexample: the claim states that for row `j > 0` the
initial guess passed to the minimizer is the inverted profile of row
`j - 1`.  With the concrete optimizer `opt0` (which returns its initial
guess shifted by one, so the recorded profile determines the initial
guess that was passed), a two-row survey would then have to satisfy
`model[1] = opt0 objfunc model[0]`; the code instead passes `conds0` for
every row, and at this concrete input the two sides differ. -/
theorem C3_warm_start_counterexample :
    ¬ ((invertSurvey opt0 rsqrt0 (objArg Reg.l2 0 0 L0 idModel) idModel wV wApps).1.getD 1 []
        = opt0 (fun q => rsqrt0 (objArg Reg.l2 0 0 L0 idModel q (wApps.getD 1 [])
            ((invertSurvey opt0 rsqrt0 (objArg Reg.l2 0 0 L0 idModel) idModel wV wApps).1.getD 0 [])))
            ((invertSurvey opt0 rsqrt0 (objArg Reg.l2 0 0 L0 idModel) idModel wV wApps).1.getD 0 [])) := by
  norm_num [invertSurvey, invertRows, opt0, wV, wApps, zerosQ]

/-- Claim C3 (amended): in the row-wise inversion driver the initial
guess passed to the nonlinear minimizer is the global initial guess
`conds0` of the Problem for every row, including rows `j > 0`; the
inverted profile of the previous row enters only as the `pn` argument of the objective
(the temporal regularization term), not as the initial guess. -/
theorem C3_initial_guess_always_conds0 (opt : (Vec → ℝ) → Vec → Vec)
    (rsqrt : ℚ → ℝ) (objA : Vec → Vec → Vec → ℚ) (fmodel : Vec → Vec)
    (conds0 : Vec) (apps : List Vec) (j : Nat) (hj : j < apps.length) :
    (invertSurvey opt rsqrt objA fmodel conds0 apps).1.getD j []
      = opt (fun p => rsqrt (objA p (apps.getD j [])
          (if j = 0 then zerosQ conds0.length
           else (invertSurvey opt rsqrt objA fmodel conds0 apps).1.getD (j - 1) [])))
          conds0 :=
  invertSurvey_fst_getD opt rsqrt objA fmodel conds0 apps j hj

/-- Closed witness for the amended C3 at row index 1 of a two-row survey. -/
theorem C3_initial_guess_witness :
    1 < wApps.length ∧
    (invertSurvey opt0 rsqrt0 (objArg Reg.l2 0 0 L0 idModel) idModel wV wApps).1.getD 1 []
      = opt0 (fun p => rsqrt0 (objArg Reg.l2 0 0 L0 idModel p (wApps.getD 1 [])
          (if 1 = 0 then zerosQ wV.length
           else (invertSurvey opt0 rsqrt0 (objArg Reg.l2 0 0 L0 idModel) idModel wV wApps).1.getD 0 [])))
          wV :=
  ⟨by decide,
    C3_initial_guess_always_conds0 opt0 rsqrt0 (objArg Reg.l2 0 0 L0 idModel)
      idModel wV wApps 1 (by decide)⟩

/-! ### Claim C2 -/

/-- Claim C2: for every row, the RMSE recorded by both inversion drivers
equals `sqrt(mean((forward(result) - observed)^2))`, computed purely
from the data residual of the recorded profile: the stored rmse lists
are exactly the unregularized formula applied to the stored models and
the observed rows, for all values of `alpha` and `beta` and for both
regularization kinds (the formula on the right does not mention `reg`,
`alpha` or `beta`). -/
theorem C2_rmse_pure_data_misfit (hp : Helpers) (fm : String) (reg : Reg)
    (alpha beta : ℚ) (opt : (Vec → ℝ) → Vec → Vec) (rsqrt : ℚ → ℝ)
    (lsolve : Mat → Vec → Vec) (st : ProblemState) :
    (invert hp fm reg alpha beta opt rsqrt st).rmses
      = List.zipWith
          (fun mrow s => List.zipWith
            (fun m app => rsqrt (sumSq (vsubQ (fmSelect hp fm m) app) / (app.length : ℚ)))
            mrow s.rows)
          (invert hp fm reg alpha beta opt rsqrt st).models st.surveys
    ∧ (invertGN hp alpha lsolve rsqrt st).rmses
      = List.zipWith
          (fun mrow s => List.zipWith
            (fun m app => rsqrt (sumSq (vsubQ app (hp.fCS m)) / (app.length : ℚ)))
            mrow s.rows)
          (invertGN hp alpha lsolve rsqrt st).models st.surveys := by
  constructor
  · by_cases hfm : fm = "CS" ∨ fm = "FS" ∨ fm = "FSandrade"
    · simp only [invert, if_pos hfm]
      exact mapSnd_eq_zipWith_mapFst _
        (fun mrow s => List.zipWith
          (fun m app => rsqrt (sumSq (vsubQ (fmSelect hp fm m) app) / (app.length : ℚ)))
          mrow s.rows)
        (fun s => invertSurvey_snd_eq opt rsqrt _ (fmSelect hp fm) st.conds0 s.rows)
        st.surveys
    · simp only [invert, if_neg hfm]
      simp
  · simp only [invertGN]
    refine mapSnd_eq_zipWith_mapFst _ _ (fun s => ?_) st.surveys
    simp only [invertGNsurvey]
    exact mapSnd_eq_zipWith_mapFst _ _ (fun a => rfl) s.rows

/-! ### Claim C9 -/

/-- Claim C9: both `invert` and `invertGN` clear the results lists on
entry — their output does not depend on the `models`/`rmses` stored by a
previous run — and on completion (for a recognized forward model in the
case of `invert`) they hold exactly one model table per survey, each
with one conductivity row per measurement row and a parallel RMSE value
per row, appended in survey order. -/
theorem C9_reset_and_alignment (hp : Helpers) (fm : String) (reg : Reg)
    (alpha beta : ℚ) (opt : (Vec → ℝ) → Vec → Vec) (rsqrt : ℚ → ℝ)
    (lsolve : Mat → Vec → Vec) (st : ProblemState)
    (M : List (List Vec)) (R : List (List ℝ))
    (hfm : fm = "CS" ∨ fm = "FS" ∨ fm = "FSandrade") :
    invert hp fm reg alpha beta opt rsqrt { st with models := M, rmses := R }
      = invert hp fm reg alpha beta opt rsqrt st
    ∧ invertGN hp alpha lsolve rsqrt { st with models := M, rmses := R }
      = invertGN hp alpha lsolve rsqrt st
    ∧ (invert hp fm reg alpha beta opt rsqrt st).models.length = st.surveys.length
    ∧ (invert hp fm reg alpha beta opt rsqrt st).rmses.length = st.surveys.length
    ∧ (invert hp fm reg alpha beta opt rsqrt st).models.map List.length
        = st.surveys.map (fun s => s.rows.length)
    ∧ (invert hp fm reg alpha beta opt rsqrt st).rmses.map List.length
        = st.surveys.map (fun s => s.rows.length)
    ∧ (invertGN hp alpha lsolve rsqrt st).models.length = st.surveys.length
    ∧ (invertGN hp alpha lsolve rsqrt st).rmses.length = st.surveys.length
    ∧ (invertGN hp alpha lsolve rsqrt st).models.map List.length
        = st.surveys.map (fun s => s.rows.length)
    ∧ (invertGN hp alpha lsolve rsqrt st).rmses.map List.length
        = st.surveys.map (fun s => s.rows.length) := by
  refine ⟨by cases st; rfl, by cases st; rfl, ?_, ?_, ?_, ?_, ?_, ?_, ?_, ?_⟩
  · simp only [invert, if_pos hfm, List.length_map]
  · simp only [invert, if_pos hfm, List.length_map]
  · simp only [invert, if_pos hfm, List.map_map]
    exact List.map_congr_left (fun s _ =>
      invertSurvey_fst_length opt rsqrt _ (fmSelect hp fm) st.conds0 s.rows)
  · simp only [invert, if_pos hfm, List.map_map]
    exact List.map_congr_left (fun s _ =>
      invertSurvey_snd_length opt rsqrt _ (fmSelect hp fm) st.conds0 s.rows)
  · simp only [invertGN, List.length_map]
  · simp only [invertGN, List.length_map]
  · simp only [invertGN, List.map_map]
    refine List.map_congr_left (fun s _ => ?_)
    simp only [invertGNsurvey, List.length_map, Function.comp]
  · simp only [invertGN, List.map_map]
    refine List.map_congr_left (fun s _ => ?_)
    simp only [invertGNsurvey, List.length_map, Function.comp]

/-- Closed witness for C9: a one-survey problem with stale results in
`models`/`rmses`, forward model CS. -/
theorem C9_reset_and_alignment_witness :
    ("CS" = "CS" ∨ "CS" = "FS" ∨ "CS" = "FSandrade")
    ∧ (invert hp0 "CS" Reg.l2 0 0 opt0 rsqrt0 { sampleState with models := [[[1]]], rmses := [[]] }
        = invert hp0 "CS" Reg.l2 0 0 opt0 rsqrt0 sampleState
      ∧ invertGN hp0 0 lsolve0 rsqrt0 { sampleState with models := [[[1]]], rmses := [[]] }
        = invertGN hp0 0 lsolve0 rsqrt0 sampleState
      ∧ (invert hp0 "CS" Reg.l2 0 0 opt0 rsqrt0 sampleState).models.length
          = sampleState.surveys.length
      ∧ (invert hp0 "CS" Reg.l2 0 0 opt0 rsqrt0 sampleState).rmses.length
          = sampleState.surveys.length
      ∧ (invert hp0 "CS" Reg.l2 0 0 opt0 rsqrt0 sampleState).models.map List.length
          = sampleState.surveys.map (fun s => s.rows.length)
      ∧ (invert hp0 "CS" Reg.l2 0 0 opt0 rsqrt0 sampleState).rmses.map List.length
          = sampleState.surveys.map (fun s => s.rows.length)
      ∧ (invertGN hp0 0 lsolve0 rsqrt0 sampleState).models.length
          = sampleState.surveys.length
      ∧ (invertGN hp0 0 lsolve0 rsqrt0 sampleState).rmses.length
          = sampleState.surveys.length
      ∧ (invertGN hp0 0 lsolve0 rsqrt0 sampleState).models.map List.length
          = sampleState.surveys.map (fun s => s.rows.length)
      ∧ (invertGN hp0 0 lsolve0 rsqrt0 sampleState).rmses.map List.length
          = sampleState.surveys.map (fun s => s.rows.length)) :=
  ⟨Or.inl rfl,
    C9_reset_and_alignment hp0 "CS" Reg.l2 0 0 opt0 rsqrt0 lsolve0 sampleState
      [[[1]]] [[]] (Or.inl rfl)⟩

/-! ### Claim C10 -/

/-- Claim C10: for every `forwardModel` string outside CS/FS/FSandrade
(including the advertised CSgn and CSgndiff), `invert` returns without
inverting anything: the output state is the input state with `models`
and `rmses` cleared to empty lists, so results of a previous run are
destroyed and no new results are produced. -/
theorem C10_unrecognized_forward_model (hp : Helpers) (fm : String)
    (reg : Reg) (alpha beta : ℚ) (opt : (Vec → ℝ) → Vec → Vec)
    (rsqrt : ℚ → ℝ) (st : ProblemState)
    (hfm : ¬ (fm = "CS" ∨ fm = "FS" ∨ fm = "FSandrade")) :
    invert hp fm reg alpha beta opt rsqrt st
      = { st with models := [], rmses := [] } := by
  simp only [invert, if_neg hfm]

/-- Closed witness for C10 at `forwardModel = "CSgn"`, with non-empty
previous results that get wiped. -/
theorem C10_unrecognized_forward_model_witness :
    ¬ ("CSgn" = "CS" ∨ "CSgn" = "FS" ∨ "CSgn" = "FSandrade")
    ∧ invert hp0 "CSgn" Reg.l2 (7 / 100) 0 opt0 rsqrt0
        { sampleState with models := [[[1]]], rmses := [[]] }
      = { { sampleState with models := [[[1]]], rmses := [[]] } with
            models := [], rmses := [] } :=
  ⟨by decide,
    C10_unrecognized_forward_model hp0 "CSgn" Reg.l2 (7 / 100) 0 opt0 rsqrt0
      { sampleState with models := [[[1]]], rmses := [[]] } (by decide)⟩

/-! ### Claim C5 -/

/-- Claim C5: for every survey row, `invertGN` initializes the profile
as a uniform vector whose entries all equal the mean of the observed
ECa values of the row, performs exactly one Gauss–Newton update — one
application of the linear solver to the regularized normal equations
`(Jᵀ J + alpha L) delta = Jᵀ d - alpha L profile` with
`d = observed - J profile` (under the spec-modelled linearity
`fCS p = J p`) — adds the solution to the profile, and records that
result.  The solve counter of the instrumented loop is exactly 1. -/
theorem C5_gn_single_solve (J L : Mat) (alpha : ℚ)
    (lsolve : Mat → Vec → Vec) (fCSf : Vec → Vec) (rsqrt : ℚ → ℝ)
    (n : Nat) (app : Vec) (apps : List Vec)
    (hlin : ∀ p, fCSf p = matVecQ J p) :
    gnRowInit n app = List.replicate n (meanQ app)
    ∧ invertGNrow J L alpha lsolve fCSf n app
        = (vaddQ (gnRowInit n app)
            (lsolve (matAddQ (matMulQ (transposeQ J) J) (smulMatQ alpha L))
              (vsubQ (matVecQ (transposeQ J)
                       (vsubQ app (matVecQ J (gnRowInit n app))))
                     (smulVecQ alpha (matVecQ L (gnRowInit n app))))), 1)
    ∧ (invertGNsurvey J L alpha lsolve fCSf rsqrt n apps).1
        = apps.map (fun a => (invertGNrow J L alpha lsolve fCSf n a).1) := by
  refine ⟨rfl, ?_, ?_⟩
  · simp only [invertGNrow, gnLoop, gnStep, hlin]
  · simp only [invertGNsurvey, List.map_map]
    rfl

/-- Closed witness for C5: one coil, one layer, concrete Jacobian. -/
theorem C5_gn_single_solve_witness :
    (∀ p, fCS1 p = matVecQ J1 p)
    ∧ (gnRowInit 1 [4] = List.replicate 1 (meanQ [4])
      ∧ invertGNrow J1 L0 0 lsolve0 fCS1 1 [4]
          = (vaddQ (gnRowInit 1 [4])
              (lsolve0 (matAddQ (matMulQ (transposeQ J1) J1) (smulMatQ 0 L0))
                (vsubQ (matVecQ (transposeQ J1)
                         (vsubQ [4] (matVecQ J1 (gnRowInit 1 [4]))))
                       (smulVecQ 0 (matVecQ L0 (gnRowInit 1 [4]))))), 1)
      ∧ (invertGNsurvey J1 L0 0 lsolve0 fCS1 rsqrt0 1 [[4]]).1
          = [[4]].map (fun a => (invertGNrow J1 L0 0 lsolve0 fCS1 1 a).1)) :=
  ⟨fun _ => rfl,
    C5_gn_single_solve J1 L0 0 lsolve0 fCS1 rsqrt0 1 [4] [[4]] (fun _ => rfl)⟩

/-! ### Claim C4 -/

/-- Claim C4 is a code bug: the validation test of `setDepths` is inverted.
The code raises the ValueError reading "Depths should be ordered and
increasing." precisely when the depth sequence IS strictly increasing
(evaluated here at the valid input [1, 2]), stores the non-increasing
sequence [2, 1] unchanged without any error, and only the empty-input
check behaves as documented. -/
theorem C4_setDepths_check_inverted :
    setDepths [1, 2] = Except.error "Depths should be ordered and increasing."
    ∧ setDepths [2, 1] = Except.ok [2, 1]
    ∧ setDepths [] = Except.error "No depths specified." := by
  refine ⟨?_, ?_, ?_⟩ <;> norm_num [setDepths, diffQ]

/-! ### Claim C6 -/

/-- A survey with a single coil. -/
def surveyA : SurveyE where
  coils := ["HCP1"]
  freqs := []
  cspacing := []
  cpos := []
  hx := []
  rows := []

/-- A survey whose coil list strictly extends that of `surveyA`. -/
def surveyAB : SurveyE where
  coils := ["HCP1", "HCP2"]
  freqs := []
  cspacing := []
  cpos := []
  hx := []
  rows := []

/-- A survey with a single coil different from that of `surveyA`. -/
def surveyX : SurveyE where
  coils := ["VCP1"]
  freqs := []
  cspacing := []
  cpos := []
  hx := []
  rows := []

/-- A problem with no surveys registered yet. -/
def emptyProblem : ProblemState where
  coils := []
  freqs := []
  cspacing := []
  cpos := []
  hx := []
  surveys := []
  models := []
  rmses := []
  conds0 := [20, 20, 20]

/-- Claim C6 counterexample: the claim states that with at least one
registered survey, a new survey is appended if and only if its coil
configuration equals the existing one.  Because the comparison runs over
the Python `zip`, which truncates to the shorter list, the two-coil survey
`surveyAB` is appended to a problem whose configuration is the one-coil
list of `surveyA`, even though the two configurations are not equal. -/
theorem C6_zip_counterexample :
    (createSurvey (createSurvey emptyProblem surveyA) surveyAB).surveys
        = (createSurvey emptyProblem surveyA).surveys ++ [surveyAB]
    ∧ surveyAB.coils ≠ (createSurvey emptyProblem surveyA).coils := by
  refine ⟨?_, ?_⟩ <;> decide

/-- Claim C6 (amended): when a Problem already has at least one
registered survey, `createSurvey` appends the new survey if and only if
the elementwise comparison over the zip of the existing and new coil
lists — which truncates to the shorter of the two — is all-true (so a
coil list that extends or truncates the existing one with an agreeing
overlap is also appended); when some compared entry differs, the survey
list is left unchanged and no error is raised. -/
theorem C6_createSurvey_zip_check (st : ProblemState) (s : SurveyE)
    (hne : st.surveys.length ≠ 0) :
    ((createSurvey st s).surveys = st.surveys ++ [s]
      ↔ (List.zipWith (fun a b => decide (a = b)) st.coils s.coils).all
          (fun x => x) = true)
    ∧ ((List.zipWith (fun a b => decide (a = b)) st.coils s.coils).all
          (fun x => x) = false
        → createSurvey st s = st) := by
  simp only [createSurvey, if_neg hne]
  by_cases h : (List.zipWith (fun a b => decide (a = b)) st.coils s.coils).all
      (fun x => x) = true
  · rw [if_pos h]
    refine ⟨⟨fun _ => h, fun _ => rfl⟩, fun hf => ?_⟩
    rw [h] at hf
    exact absurd hf (by simp)
  · rw [if_neg h]
    refine ⟨⟨fun he => ?_, fun ht => absurd ht h⟩, fun _ => rfl⟩
    have h2 := congrArg (fun l => List.drop st.surveys.length l) he
    simp at h2

/-- Closed witness for the amended C6: a one-survey problem and a
mismatching one-coil survey, which is silently rejected. -/
theorem C6_createSurvey_zip_check_witness :
    (createSurvey emptyProblem surveyA).surveys.length ≠ 0
    ∧ (((createSurvey (createSurvey emptyProblem surveyA) surveyX).surveys
          = (createSurvey emptyProblem surveyA).surveys ++ [surveyX]
        ↔ (List.zipWith (fun a b => decide (a = b))
            (createSurvey emptyProblem surveyA).coils surveyX.coils).all
            (fun x => x) = true)
      ∧ ((List.zipWith (fun a b => decide (a = b))
            (createSurvey emptyProblem surveyA).coils surveyX.coils).all
            (fun x => x) = false
          → createSurvey (createSurvey emptyProblem surveyA) surveyX
              = createSurvey emptyProblem surveyA)) :=
  ⟨by decide,
    C6_createSurvey_zip_check (createSurvey emptyProblem surveyA) surveyX
      (by decide)⟩
